import Mathlib

/-!
Shallow embedding of the hcxmaptool capture-decoding and geolocation pipeline
(src/packets.rs, src/geo.rs, src/hashcat.rs, src/main.rs), together with
theorems settling the specification claims.

Modelling conventions:
* Bytes are natural numbers; byte buffers are `List Nat`.
* Rust slice indexing / slicing is modelled in an `Except Unit` monad where
  `.error ()` marks an out-of-bounds access (a Rust panic); a legitimate
  "no result" is `.ok none`.
* `f64` arithmetic is modelled over the real numbers; `i8`/`i64` over `Int`;
  `u16`/`usize` over `Nat`.
* The external radiotap crate (`Radiotap::from_bytes`) is modelled by its
  observable output: an optional record of declared header length, antenna
  signal and channel frequency, passed as an input to the frame decoder.
-/

namespace HcxMap

/-- Byte read `buf[i]`: in bounds yields the byte, out of bounds is a panic. -/
def readByte (l : List Nat) (i : Nat) : Except Unit Nat :=
  match l.get? i with
  | some b => .ok b
  | none => .error ()

/-- Slice read `&buf[start..start+len]`; out-of-range slicing is a panic. -/
def readBytes (l : List Nat) (start len : Nat) : Except Unit (List Nat) :=
  if start + len ≤ l.length then .ok ((l.drop start).take len) else .error ()

/-- Suffix slice `&buf[start..]`; out-of-range slicing is a panic. -/
def readFrom (l : List Nat) (start : Nat) : Except Unit (List Nat) :=
  if start ≤ l.length then .ok (l.drop start) else .error ()

/-- The `WifiSecurity` enum of src/packets.rs. -/
inductive WifiSecurity
  | Open
  | WEP
  | WPA
  | WPA2
  | WPA3
  | WPA2WPA3
  | Unknown
deriving DecidableEq, Repr

/-- The four booleans accumulated by the element scan of `parse_wifi_security`. -/
structure SecFlags where
  has_rsn : Bool
  has_wpa : Bool
  has_sae : Bool
  has_psk : Bool
deriving DecidableEq, Repr

/-- Flag state at the start of the element scan: all false. -/
def initFlags : SecFlags := ⟨false, false, false, false⟩

/-- AKM-suite loop of `parse_wifi_security` (src/packets.rs lines 332-342):
for each suite index `i` below the count, if `tag_data` holds the whole
4-byte suite, its last byte 2 marks PSK and 8 marks SAE. `remaining` counts
the iterations left, `i` is the current suite index. -/
def scanAkm (tag_data : List Nat) (akm_offset : Nat) :
    (i remaining : Nat) → SecFlags → Except Unit SecFlags
  | _, 0, flags => .ok flags
  | i, remaining + 1, flags => do
    let suite_offset := akm_offset + 2 + i * 4
    if tag_data.length ≥ suite_offset + 4 then do
      let akm_type ← readByte tag_data (suite_offset + 3)
      let flags :=
        if akm_type = 2 then { flags with has_psk := true }
        else if akm_type = 8 then { flags with has_sae := true }
        else flags
      scanAkm tag_data akm_offset (i + 1) remaining flags
    else
      scanAkm tag_data akm_offset (i + 1) remaining flags

/-- RSN element handler (tag 48) of `parse_wifi_security`: records RSN
presence, then parses pairwise-cipher count and AKM suites when the declared
structure fits in the tag data. -/
def parseRsn (frame_body : List Nat) (offset tag_length : Nat) (flags : SecFlags) :
    Except Unit SecFlags := do
  let flags := { flags with has_rsn := true }
  if tag_length ≥ 8 then do
    let tag_data ← readBytes frame_body (offset + 2) tag_length
    if tag_data.length ≥ 8 then do
      let b6 ← readByte tag_data 6
      let b7 ← readByte tag_data 7
      let pairwise_count := b6 + b7 * 256
      let pairwise_size := pairwise_count * 4
      let akm_offset := 8 + pairwise_size
      if tag_data.length ≥ akm_offset + 2 then do
        let a0 ← readByte tag_data akm_offset
        let a1 ← readByte tag_data (akm_offset + 1)
        let akm_count := a0 + a1 * 256
        scanAkm tag_data akm_offset 0 akm_count flags
      else .ok flags
    else .ok flags
  else .ok flags

/-- Vendor-specific element handler (tag 221) of `parse_wifi_security`:
marks legacy WPA when the payload starts with OUI 00:50:F2 and sub-type 1. -/
def parseVendor (frame_body : List Nat) (offset tag_length : Nat) (flags : SecFlags) :
    Except Unit SecFlags := do
  if tag_length ≥ 8 then do
    let tag_data ← readBytes frame_body (offset + 2) tag_length
    if tag_data.length ≥ 4 then do
      let t0 ← readByte tag_data 0
      let t1 ← readByte tag_data 1
      let t2 ← readByte tag_data 2
      let t3 ← readByte tag_data 3
      if t0 = 0x00 ∧ t1 = 0x50 ∧ t2 = 0xf2 ∧ t3 = 0x01 then
        .ok { flags with has_wpa := true }
      else .ok flags
    else .ok flags
  else .ok flags

/-- Tagged-element scan loop of `parse_wifi_security` (src/packets.rs lines
299-367): while two header bytes fit, read tag number and length; stop when
the declared length would overrun the buffer; dispatch on tags 48 and 221;
advance by the element size. -/
def scanElements (frame_body : List Nat) (offset : Nat) (flags : SecFlags) :
    Except Unit SecFlags :=
  if h : offset + 2 ≤ frame_body.length then do
    let tag_number ← readByte frame_body offset
    let tag_length ← readByte frame_body (offset + 1)
    if offset + 2 + tag_length > frame_body.length then .ok flags
    else do
      let flags' ←
        if tag_number = 48 then parseRsn frame_body offset tag_length flags
        else if tag_number = 221 then parseVendor frame_body offset tag_length flags
        else .ok flags
      scanElements frame_body (offset + 2 + tag_length) flags'
  else .ok flags
termination_by frame_body.length - offset
decreasing_by omega

/-- The `parse_wifi_security` function of src/packets.rs (lines 281-384):
privacy bit clear is Open; element region shorter than 12 bytes is Unknown;
otherwise the scan flags resolve by the fixed priority chain. -/
def parse_wifi_security (frame_body : List Nat) (capabilities : Nat) :
    Except Unit WifiSecurity :=
  let privacy_enabled := capabilities &&& 0x0010 ≠ 0
  if ¬ privacy_enabled then .ok .Open
  else if frame_body.length < 12 then .ok .Unknown
  else do
    let flags ← scanElements frame_body 12 initFlags
    if flags.has_rsn then
      if flags.has_sae ∧ flags.has_psk then .ok .WPA2WPA3
      else if flags.has_sae then .ok .WPA3
      else .ok .WPA2
    else if flags.has_wpa then .ok .WPA
    else if privacy_enabled then .ok .WEP
    else .ok .Unknown

/-- Continuation-byte test of UTF-8 validation (0x80-0xBF). -/
def isCont (b : Nat) : Bool := decide (0x80 ≤ b) && decide (b ≤ 0xBF)

/-- UTF-8 validity of a byte sequence, the acceptance condition of Rust's
`std::str::from_utf8` (RFC 3629 well-formed sequences: no overlongs, no
surrogates, max U+10FFFF). -/
def utf8Valid : List Nat → Bool
  | [] => true
  | b0 :: rest =>
    if b0 ≤ 0x7F then utf8Valid rest
    else if 0xC2 ≤ b0 ∧ b0 ≤ 0xDF then
      match rest with
      | b1 :: rest1 => isCont b1 && utf8Valid rest1
      | [] => false
    else if b0 = 0xE0 then
      match rest with
      | b1 :: b2 :: rest2 =>
        decide (0xA0 ≤ b1) && decide (b1 ≤ 0xBF) && isCont b2 && utf8Valid rest2
      | _ => false
    else if (0xE1 ≤ b0 ∧ b0 ≤ 0xEC) ∨ b0 = 0xEE ∨ b0 = 0xEF then
      match rest with
      | b1 :: b2 :: rest2 => isCont b1 && isCont b2 && utf8Valid rest2
      | _ => false
    else if b0 = 0xED then
      match rest with
      | b1 :: b2 :: rest2 =>
        decide (0x80 ≤ b1) && decide (b1 ≤ 0x9F) && isCont b2 && utf8Valid rest2
      | _ => false
    else if b0 = 0xF0 then
      match rest with
      | b1 :: b2 :: b3 :: rest3 =>
        decide (0x90 ≤ b1) && decide (b1 ≤ 0xBF) && isCont b2 && isCont b3 && utf8Valid rest3
      | _ => false
    else if 0xF1 ≤ b0 ∧ b0 ≤ 0xF3 then
      match rest with
      | b1 :: b2 :: b3 :: rest3 => isCont b1 && isCont b2 && isCont b3 && utf8Valid rest3
      | _ => false
    else if b0 = 0xF4 then
      match rest with
      | b1 :: b2 :: b3 :: rest3 =>
        decide (0x80 ≤ b1) && decide (b1 ≤ 0x8F) && isCont b2 && isCont b3 && utf8Valid rest3
      | _ => false
    else false

/-- SSID walk of `parse_management_frame_body` (src/packets.rs lines 107-127):
stop when two header bytes no longer fit or a declared element length would
overrun; on the first SSID element (tag 0, positive length) take its bytes
when UTF-8-decodable and non-empty, else yield nothing; other elements are
skipped. -/
def ssidScan (frame_body : List Nat) (offset : Nat) : Except Unit (Option (List Nat)) :=
  if h : offset + 2 ≤ frame_body.length then do
    let tag_number ← readByte frame_body offset
    let tag_length ← readByte frame_body (offset + 1)
    if offset + 2 + tag_length > frame_body.length then .ok none
    else if tag_number = 0 ∧ tag_length > 0 then do
      let ssid_bytes ← readBytes frame_body (offset + 2) tag_length
      if utf8Valid ssid_bytes ∧ ssid_bytes ≠ [] then .ok (some ssid_bytes)
      else .ok none
    else ssidScan frame_body (offset + 2 + tag_length)
  else .ok none
termination_by frame_body.length - offset
decreasing_by omega

/-- The `parse_management_frame_body` function of src/packets.rs (lines
99-130): bodies shorter than 12 bytes yield no SSID; otherwise walk the
tagged elements from offset 12. -/
def parse_management_frame_body (frame_body : List Nat) : Except Unit (Option (List Nat)) :=
  if frame_body.length < 12 then .ok none
  else ssidScan frame_body 12

/-- Observable output of the external radiotap crate on one capture record:
declared header length, optional antenna signal (dBm), optional channel
frequency (MHz). -/
structure RadiotapInfo where
  length : Nat
  antenna_signal : Option Int
  channel_freq : Option Nat
deriving DecidableEq, Repr

/-- The `Packet` struct of src/packets.rs; strings are carried as their
UTF-8 bytes and the capture timestamp as whole seconds. -/
structure Packet where
  timestamp : Nat
  source_address : Option (List Nat)
  ssid : Option (List Nat)
  signal_strength : Option Int
  channel : Option Nat
  security : Option WifiSecurity
deriving DecidableEq, Repr

/-- Frequency-to-channel lookup table of `parse_wifi_packet`
(src/packets.rs lines 178-218). -/
def freqToChannel (freq : Nat) : Option Nat :=
  match freq with
  | 2412 => some 1 | 2417 => some 2 | 2422 => some 3 | 2427 => some 4
  | 2432 => some 5 | 2437 => some 6 | 2442 => some 7 | 2447 => some 8
  | 2452 => some 9 | 2457 => some 10 | 2462 => some 11 | 2467 => some 12
  | 2472 => some 13 | 2484 => some 14 | 5180 => some 36 | 5200 => some 40
  | 5220 => some 44 | 5240 => some 48 | 5260 => some 52 | 5280 => some 56
  | 5300 => some 60 | 5320 => some 64 | 5500 => some 100 | 5520 => some 104
  | 5540 => some 108 | 5560 => some 112 | 5580 => some 116 | 5600 => some 120
  | 5620 => some 124 | 5640 => some 128 | 5660 => some 132 | 5680 => some 136
  | 5700 => some 140 | 5745 => some 149 | 5765 => some 153 | 5785 => some 157
  | 5805 => some 161 | 5825 => some 165
  | _ => none

/-- Little-endian 16-bit word from two bytes (`u16::from_le_bytes`). -/
def u16le (b0 b1 : Nat) : Nat := b0 + b1 * 256

/-- Frame-control type field: bits 2-3. -/
def frameType (fc : Nat) : Nat := (fc >>> 2) &&& 0x03

/-- Frame-control subtype field: bits 4-7. -/
def frameSubtype (fc : Nat) : Nat := (fc >>> 4) &&& 0x0F

/-- Frame-control to-DS bit: bit 8. -/
def toDs (fc : Nat) : Nat := (fc >>> 8) &&& 0x01

/-- Frame-control from-DS bit: bit 9. -/
def fromDs (fc : Nat) : Nat := (fc >>> 9) &&& 0x01

/-- The `parse_wifi_packet` function of src/packets.rs (lines 169-279),
with the external radiotap parse result supplied as input (`none` models
`Radiotap::from_bytes` failing, propagated by the `?` operator). -/
def parse_wifi_packet (rt : Option RadiotapInfo) (data : List Nat) (timestamp : Nat) :
    Except Unit (Option Packet) :=
  match rt with
  | none => .ok none
  | some radiotap =>
    let radiotap_len := radiotap.length
    if data.length < radiotap_len + 24 then .ok none
    else do
      let signal_strength := radiotap.antenna_signal
      let channel := radiotap.channel_freq.bind freqToChannel
      let wlan_data ← readFrom data radiotap_len
      if wlan_data.length < 24 then .ok none
      else do
        let b0 ← readByte wlan_data 0
        let b1 ← readByte wlan_data 1
        let frame_control := u16le b0 b1
        if frameType frame_control = 0 then
          if frameSubtype frame_control = 8 ∨ frameSubtype frame_control = 5 then do
            let mac ← readBytes wlan_data 10 6
            if wlan_data.length ≥ 36 then do
              let c0 ← readByte wlan_data 34
              let c1 ← readByte wlan_data 35
              let capabilities := u16le c0 c1
              let body ← readFrom wlan_data 24
              let security ← parse_wifi_security body capabilities
              let ssid ← parse_management_frame_body body
              .ok (some ⟨timestamp, some mac, ssid, signal_strength, channel, some security⟩)
            else
              .ok (some ⟨timestamp, some mac, none, signal_strength, channel, none⟩)
          else if frameSubtype frame_control = 1 ∨ frameSubtype frame_control = 3 then do
            let mac ← readBytes wlan_data 10 6
            .ok (some ⟨timestamp, some mac, none, signal_strength, channel, none⟩)
          else .ok none
        else if frameType frame_control = 2 then
          if toDs frame_control = 1 ∧ fromDs frame_control = 0 then do
            let mac ← readBytes wlan_data 4 6
            .ok (some ⟨timestamp, some mac, none, signal_strength, channel, none⟩)
          else if toDs frame_control = 0 ∧ fromDs frame_control = 1 then do
            let mac ← readBytes wlan_data 10 6
            .ok (some ⟨timestamp, some mac, none, signal_strength, channel, none⟩)
          else if toDs frame_control = 0 ∧ fromDs frame_control = 0 then do
            let mac ← readBytes wlan_data 16 6
            .ok (some ⟨timestamp, some mac, none, signal_strength, channel, none⟩)
          else .ok none
        else .ok none

/-- Constant `RSSI_AT_1M` of src/geo.rs. -/
def RSSI_AT_1M : ℝ := -35.0

/-- Constant `PATH_LOSS_EXPONENT` of src/geo.rs. -/
def PATH_LOSS_EXPONENT : ℝ := 2.5

/-- Constant `MIN_DISTANCE_BETWEEN_OBS` of src/geo.rs (meters). -/
def MIN_DISTANCE_BETWEEN_OBS : ℝ := 5.0

/-- The `Position` struct of src/geo.rs: `f64` coordinates modelled over ℝ,
epoch-second timestamp over ℤ. -/
structure Position where
  latitude : ℝ
  longitude : ℝ
  timestamp : ℤ

/-- The `Observation` struct of src/geo.rs. -/
structure Observation where
  position : Position
  signal_strength : ℤ
  distance : ℝ

/-- Four-quadrant arctangent, the mathematical function computed by
`f64::atan2` (y first, x second). -/
noncomputable def atan2 (y x : ℝ) : ℝ :=
  if 0 < x then Real.arctan (y / x)
  else if x < 0 ∧ 0 ≤ y then Real.arctan (y / x) + Real.pi
  else if x < 0 ∧ y < 0 then Real.arctan (y / x) - Real.pi
  else if x = 0 ∧ 0 < y then Real.pi / 2
  else if x = 0 ∧ y < 0 then -(Real.pi / 2)
  else 0

/-- The `haversine_distance` function of src/geo.rs (lines 28-41). -/
noncomputable def haversine_distance (lat1 lon1 lat2 lon2 : ℝ) : ℝ :=
  let R : ℝ := 6378000.0
  let lat1_rad := lat1 * (Real.pi / 180)
  let lat2_rad := lat2 * (Real.pi / 180)
  let dlat := (lat2 - lat1) * (Real.pi / 180)
  let dlon := (lon2 - lon1) * (Real.pi / 180)
  let a := Real.sin (dlat / 2) ^ 2 +
    Real.cos lat1_rad * Real.cos lat2_rad * Real.sin (dlon / 2) ^ 2
  let c := 2 * atan2 (Real.sqrt a) (Real.sqrt (1 - a))
  R * c

/-- Per-observation weight of `weighted_centroid`:
`((rssi + 100) / 75 * 100).max(0)`. -/
noncomputable def weightOf (o : Observation) : ℝ :=
  max (((o.signal_strength : ℝ) + 100.0) / 75.0 * 100.0) 0.0

/-- The `weighted_centroid` function of src/geo.rs (lines 43-86): one pass
accumulating total weight and weighted coordinate sums, then either the
weight-normalized mean or, at total weight exactly zero, the unweighted
mean; stamped with the first observation's timestamp. -/
noncomputable def weighted_centroid (observations : List Observation) : Option Position :=
  match observations with
  | [] => none
  | first :: rest =>
    let obs := first :: rest
    let acc := obs.foldl
      (fun (acc : ℝ × ℝ × ℝ) o =>
        (acc.1 + weightOf o,
         acc.2.1 + o.position.latitude * weightOf o,
         acc.2.2 + o.position.longitude * weightOf o))
      (0, 0, 0)
    if acc.1 = 0 then
      some ⟨(obs.map (fun o => o.position.latitude)).sum / (obs.length : ℝ),
            (obs.map (fun o => o.position.longitude)).sum / (obs.length : ℝ),
            first.position.timestamp⟩
    else
      some ⟨acc.2.1 / acc.1, acc.2.2 / acc.1, first.position.timestamp⟩

/-- Per-iteration gradient accumulation of `trilateration` (src/geo.rs lines
103-132): returns (grad_lat, grad_lon, total_weight). -/
noncomputable def trilat_grads (observations : List Observation) (est_lat est_lon : ℝ) :
    ℝ × ℝ × ℝ :=
  observations.foldl
    (fun (acc : ℝ × ℝ × ℝ) obs =>
      let cos_lat := Real.cos (est_lat * (Real.pi / 180))
      if |cos_lat| < 0.01 then acc
      else
        let dx := (est_lon - obs.position.longitude) * 111320.0 * cos_lat
        let dy := (est_lat - obs.position.latitude) * 110540.0
        let calculated_distance := Real.sqrt (dx * dx + dy * dy)
        if calculated_distance < 0.1 then acc
        else
          let error := calculated_distance - obs.distance
          let weight := min (max (((obs.signal_strength : ℝ) + 100.0) / 70.0) 0.0) 1.0
          let weight_sq := weight * weight
          (acc.1 + weight_sq * error * dy / calculated_distance / 110540.0,
           acc.2.1 + weight_sq * error * dx / calculated_distance / (111320.0 * cos_lat),
           acc.2.2 + weight_sq))
    (0.0, 0.0, 0.0)

/-- Gradient-descent loop of `trilateration` (src/geo.rs lines 102-152),
with the remaining iteration count as fuel: zero total weight returns the
initial centroid, convergence (both updates below the threshold) stops
early, otherwise iterate; the final estimate is stamped with the first
observation's timestamp. -/
noncomputable def trilat_loop (observations : List Observation) (initial : Position) :
    Nat → ℝ → ℝ → Option Position
  | 0, est_lat, est_lon =>
    observations.head?.map (fun f => ⟨est_lat, est_lon, f.position.timestamp⟩)
  | n + 1, est_lat, est_lon =>
    let g := trilat_grads observations est_lat est_lon
    if g.2.2 = 0.0 then some initial
    else
      let grad_lat := g.1 / g.2.2
      let grad_lon := g.2.1 / g.2.2
      let update_lat := grad_lat * 0.001
      let update_lon := grad_lon * 0.001
      let est_lat' := est_lat - update_lat
      let est_lon' := est_lon - update_lon
      if |update_lat| < 0.000001 ∧ |update_lon| < 0.000001 then
        observations.head?.map (fun f => ⟨est_lat', est_lon', f.position.timestamp⟩)
      else trilat_loop observations initial n est_lat' est_lon'

/-- The `trilateration` function of src/geo.rs (lines 88-159): fewer than 3
observations delegate to the weighted centroid; otherwise up to 100 steps
of weighted gradient descent from the weighted centroid. -/
noncomputable def trilateration (observations : List Observation) : Option Position :=
  if observations.length < 3 then weighted_centroid observations
  else
    match weighted_centroid observations with
    | none => none
    | some initial => trilat_loop observations initial 100 initial.latitude initial.longitude

/-- Linear interpolation step of `get_position_at` (src/geo.rs lines
177-190): fractional position of the timestamp between the two fixes
(ratio 0 when the fix timestamps coincide), stamped with the requested
timestamp. -/
noncomputable def interpolate (timestamp_secs : ℤ) (pos1 pos2 : Position) : Position :=
  let ratio : ℝ :=
    if pos2.timestamp ≠ pos1.timestamp then
      ((timestamp_secs - pos1.timestamp : ℤ) : ℝ) / ((pos2.timestamp - pos1.timestamp : ℤ) : ℝ)
    else 0.0
  ⟨pos1.latitude + (pos2.latitude - pos1.latitude) * ratio,
   pos1.longitude + (pos2.longitude - pos1.longitude) * ratio,
   timestamp_secs⟩

/-- Consecutive-pair scan of `get_position_at` (src/geo.rs lines 172-192):
the first pair bracketing the timestamp is interpolated; no bracketing pair
yields `none`. -/
noncomputable def scanPairs (timestamp_secs : ℤ) : List Position → Option Position
  | pos1 :: pos2 :: rest =>
    if timestamp_secs ≥ pos1.timestamp ∧ timestamp_secs ≤ pos2.timestamp then
      some (interpolate timestamp_secs pos1 pos2)
    else scanPairs timestamp_secs (pos2 :: rest)
  | _ => none

/-- The `get_position_at` function of src/geo.rs (lines 161-194); the
`Duration` timestamp is carried as whole seconds (`as_secs`). -/
noncomputable def get_position_at (timestamp : Nat) (positions : List Position) :
    Option Position :=
  let timestamp_secs : ℤ := (timestamp : ℤ)
  if positions.isEmpty then none
  else if positions.length = 1 then some (positions.headD ⟨0, 0, 0⟩)
  else scanPairs timestamp_secs positions

/-- The `rssi_to_distance` function of src/geo.rs (lines 196-204):
log-distance path-loss model `10 ^ ((A - rssi) / (10 n))`. -/
noncomputable def rssi_to_distance (rssi : ℤ) : ℝ :=
  (10 : ℝ) ^ ((RSSI_AT_1M - (rssi : ℝ)) / (10.0 * PATH_LOSS_EXPONENT))

/-- Inner loop of `filter_close_observations` (src/geo.rs lines 217-229):
a candidate is kept only when no already-kept observation lies within
`MIN_DISTANCE_BETWEEN_OBS` meters of it. -/
noncomputable def keepLoop (obs : Observation) : List Observation → Bool
  | [] => true
  | existing :: rest =>
    if haversine_distance obs.position.latitude obs.position.longitude
        existing.position.latitude existing.position.longitude < MIN_DISTANCE_BETWEEN_OBS
    then false
    else keepLoop obs rest

/-- Greedy accumulation of `filter_close_observations` (src/geo.rs lines
216-233): candidates in order, appended when `keepLoop` accepts them. -/
noncomputable def greedyFilter : List Observation → List Observation → List Observation
  | filtered, [] => filtered
  | filtered, obs :: rest =>
    if keepLoop obs filtered then greedyFilter (filtered ++ [obs]) rest
    else greedyFilter filtered rest

/-- Descending-signal comparison used by the sort in
`filter_close_observations` (`b.signal_strength.cmp(&a.signal_strength)`). -/
def signalDesc (a b : Observation) : Bool :=
  decide (b.signal_strength ≤ a.signal_strength)

/-- The `filter_close_observations` function of src/geo.rs (lines 206-236):
no-op at one observation or fewer; otherwise sort descending by signal
strength, seed the kept set with the strongest observation and greedily add
candidates far enough from every kept one. -/
noncomputable def filter_close_observations (observations : List Observation) :
    List Observation :=
  if observations.length ≤ 1 then observations
  else
    match observations.mergeSort signalDesc with
    | [] => []
    | first :: rest => greedyFilter [first] rest

/-- The `AccessPoint` struct of src/main.rs; strings carried as UTF-8
bytes where they are compared, `position_method` as a plain string tag. -/
structure AccessPoint where
  mac : List Nat
  ssid : Option (List Nat)
  observations : List Observation
  estimated_position : Option Position
  position_method : Option String
  security : Option WifiSecurity
  channel : Option Nat
  vendor : Option String
  password : Option (List Nat)

/-- Observation built from a correlated packet in `group_packets_by_mac`
(src/packets.rs lines 52-58). -/
noncomputable def mkObservation (pos : Position) (signal : ℤ) : Observation :=
  ⟨pos, signal, rssi_to_distance signal⟩

/-- The AccessPoint created on first sight of a MAC
(`or_insert_with` closure, src/packets.rs lines 60-70). -/
def freshAP (mac : List Nat) (packet : Packet) : AccessPoint :=
  ⟨mac, packet.ssid, [], none, none, none, packet.channel, none, none⟩

/-- Lookup in the deterministic association-list model of the
`HashMap<[u8; 6], AccessPoint>`. -/
def alLookup : List (List Nat × AccessPoint) → List Nat → Option AccessPoint
  | [], _ => none
  | (k, v) :: rest, mac => if k = mac then some v else alLookup rest mac

/-- In-place update (or append on first sight) in the association-list
model of the MAC map. -/
def alUpdate : List (List Nat × AccessPoint) → List Nat → AccessPoint →
    List (List Nat × AccessPoint)
  | [], mac, ap => [(mac, ap)]
  | (k, v) :: rest, mac, ap =>
    if k = mac then (mac, ap) :: rest else (k, v) :: alUpdate rest mac ap

/-- Mutation applied to a map entry for one correlated packet
(src/packets.rs lines 72-80): append the observation, then backfill ssid
and security when currently unset and the packet carries a value. -/
def updAP (ap : AccessPoint) (packet : Packet) (observation : Observation) : AccessPoint :=
  let ap := { ap with observations := ap.observations ++ [observation] }
  let ap :=
    if ap.ssid = none ∧ packet.ssid ≠ none then { ap with ssid := packet.ssid } else ap
  if ap.security = none ∧ packet.security ≠ none then
    { ap with security := packet.security }
  else ap

/-- One iteration of the packet loop of `group_packets_by_mac`
(src/packets.rs lines 48-84): packets lacking a source address, a signal or
a resolvable position contribute nothing; otherwise the observation is
appended to the (possibly fresh) entry and ssid/security are backfilled
when currently unset. -/
noncomputable def aggStep (positions : List Position)
    (m : List (List Nat × AccessPoint)) (packet : Packet) :
    List (List Nat × AccessPoint) :=
  match packet.source_address with
  | none => m
  | some mac =>
    match packet.signal_strength with
    | none => m
    | some signal =>
      match get_position_at packet.timestamp positions with
      | none => m
      | some pos =>
        let observation := mkObservation pos signal
        let ap := (alLookup m mac).getD (freshAP mac packet)
        alUpdate m mac (updAP ap packet observation)

/-- The `group_packets_by_mac` function of src/packets.rs (lines 45-87),
as the association-list content of the MAC map after the packet fold. -/
noncomputable def group_packets_by_mac (packets : List Packet) (positions : List Position) :
    List (List Nat × AccessPoint) :=
  packets.foldl (aggStep positions) []

/-- Observation list attached to a MAC in the aggregated map (empty when
the MAC is absent). -/
def obsAt (m : List (List Nat × AccessPoint)) (mac : List Nat) : List Observation :=
  ((alLookup m mac).map (fun ap => ap.observations)).getD []

/-- Observation one packet contributes to one MAC: present exactly when
the packet carries that source address, a signal, and a position resolvable
on the track. -/
noncomputable def pContrib (positions : List Position) (mac : List Nat) (packet : Packet) :
    Option Observation :=
  match packet.source_address, packet.signal_strength with
  | some m, some signal =>
    if m = mac then
      (get_position_at packet.timestamp positions).map (fun pos => mkObservation pos signal)
    else none
  | _, _ => none

/-- Observations a packet list contributes to one MAC, in packet order. -/
noncomputable def contrib (positions : List Position) (mac : List Nat)
    (packets : List Packet) : List Observation :=
  packets.filterMap (pContrib positions mac)

/-- The `APPassword` record of src/hashcat.rs. -/
structure APPassword where
  mac : List Nat
  ssid : List Nat
  password : List Nat
  security : WifiSecurity

/-- Effect of one recovered password on one AccessPoint, the body of the
nested loops of `bind_passwords_to_aps` (src/hashcat.rs lines 19-35). -/
def bindPwdStep (ap : AccessPoint) (pwd : APPassword) : AccessPoint :=
  if ap.mac = pwd.mac then
    if ap.ssid = none then
      let ap := { ap with ssid := some pwd.ssid, password := some pwd.password }
      if ap.security = none then { ap with security := some pwd.security } else ap
    else if ap.ssid = some pwd.ssid then
      let ap := { ap with password := some pwd.password }
      if ap.security = none then { ap with security := some pwd.security } else ap
    else ap
  else ap

/-- The `bind_passwords_to_aps` function of src/hashcat.rs (lines 17-37),
with the externally recovered password list supplied as input. -/
def bind_passwords_to_aps (aps : List AccessPoint) (passwords : List APPassword) :
    List AccessPoint :=
  aps.map (fun ap => passwords.foldl bindPwdStep ap)

/-- Per-AP estimation stage of `main` (src/main.rs lines 89-107):
deduplicate the observations, then select the estimation method by the
resulting count. -/
noncomputable def estimate_ap (ap : AccessPoint) : AccessPoint :=
  let obs := filter_close_observations ap.observations
  let ap2 := { ap with observations := obs }
  match obs.length with
  | 0 => ap2
  | 1 =>
    { ap2 with
      estimated_position := some ((obs.headD ⟨⟨0, 0, 0⟩, 0, 0⟩).position),
      position_method := some "single" }
  | 2 =>
    { ap2 with
      estimated_position := weighted_centroid obs,
      position_method := some "weighted_centroid" }
  | _ + 3 =>
    { ap2 with
      estimated_position := trilateration obs,
      position_method := some "trilateration" }

/-- Concrete beacon element region used as an evaluation input: 12 fixed
parameter bytes followed by one RSN element (tag 48, length 18) declaring a
single pairwise cipher suite and a single AKM suite of type 8 (SAE). -/
def exBody : List Nat :=
  [0, 0, 0, 0, 0, 0, 0, 0, 0, 0, 0, 0,
   48, 18, 1, 0, 0, 15, 172, 4, 1, 0, 0, 15, 172, 4, 1, 0, 0, 15, 172, 8]

/-- Concrete capture record used as an evaluation input: an empty radio
header followed by a 24-byte 802.11 beacon header (frame control 0x0080)
whose BSSID field (bytes 10-15) is 11..16. -/
def exData : List Nat :=
  [128, 0, 0, 0, 1, 2, 3, 4, 5, 6, 11, 12, 13, 14, 15, 16, 0, 0, 0, 0, 0, 0, 0, 0]

/-- Concrete observation used as an evaluation input. -/
noncomputable def obsEx : Observation := ⟨⟨0, 0, 0⟩, -40, 1⟩

/-- Concrete MAC address used as an evaluation input. -/
def macEx : List Nat := [1, 2, 3, 4, 5, 6]

/-- Concrete GPS fix used as an evaluation input. -/
noncomputable def posEx : Position := ⟨0, 0, 0⟩

/-- Concrete packet (signal -40 dBm) used as an evaluation input. -/
def pktA : Packet := ⟨5, some macEx, none, some (-40), none, none⟩

/-- Concrete packet (signal -50 dBm) used as an evaluation input. -/
def pktB : Packet := ⟨5, some macEx, none, some (-50), none, none⟩

/-- Concrete one-observation access point used as an evaluation input. -/
noncomputable def apEx : AccessPoint :=
  ⟨macEx, none, [obsEx], none, none, none, none, none, none⟩

/-- Concrete access point with ssid and security already set, used as an
evaluation input. -/
def apSetEx : AccessPoint :=
  ⟨macEx, some [65], [], none, none, some .WPA2, none, none, none⟩

/-- Concrete recovered-password record used as an evaluation input. -/
def pwdEx : APPassword := ⟨macEx, [66], [67], .WPA3⟩

/-! Helper lemmas: the byte-level parsers never perform an out-of-bounds
access, i.e. never return `.error`. -/

@[simp] lemma ok_bind {α β : Type} (a : α) (f : α → Except Unit β) :
    (Except.ok a >>= f) = f a := rfl

lemma readByte_ok {l : List Nat} {i : Nat} (h : i < l.length) :
    readByte l i = .ok (l.getD i 0) := by
  unfold readByte
  cases hg : l.get? i with
  | none =>
    have := List.get?_eq_none.mp hg
    omega
  | some b =>
    have hb : l.getD i 0 = b := by
      rw [List.getD_eq_getElem?_getD, ← List.get?_eq_getElem?, hg]
      rfl
    rw [hb]

lemma readBytes_ok {l : List Nat} {start len : Nat} (h : start + len ≤ l.length) :
    readBytes l start len = .ok ((l.drop start).take len) := by
  unfold readBytes
  rw [if_pos h]

lemma readFrom_ok {l : List Nat} {start : Nat} (h : start ≤ l.length) :
    readFrom l start = .ok (l.drop start) := by
  unfold readFrom
  rw [if_pos h]

lemma scanAkm_ok (td : List Nat) (ao : Nat) :
    ∀ (remaining i : Nat) (flags : SecFlags), ∃ r, scanAkm td ao i remaining flags = .ok r := by
  intro remaining
  induction remaining with
  | zero => intro i flags; exact ⟨flags, rfl⟩
  | succ n ih =>
    intro i flags
    rw [scanAkm]
    split
    · next hlen =>
      rw [readByte_ok (by omega)]
      simp only [ok_bind]
      exact ih (i + 1) _
    · exact ih (i + 1) flags

lemma lengthTagData {body : List Nat} {offset tag_length : Nat}
    (h : offset + 2 + tag_length ≤ body.length) :
    ((body.drop (offset + 2)).take tag_length).length = tag_length := by
  rw [List.length_take, List.length_drop]
  omega

lemma parseRsn_ok (body : List Nat) (offset tag_length : Nat) (flags : SecFlags)
    (h : offset + 2 + tag_length ≤ body.length) :
    ∃ r, parseRsn body offset tag_length flags = .ok r := by
  unfold parseRsn
  split
  · rw [readBytes_ok (by omega)]
    simp only [ok_bind]
    have hlen := lengthTagData h
    split
    · next h8 =>
      rw [readByte_ok (by omega), readByte_ok (by omega)]
      simp only [ok_bind]
      split
      · next hakm =>
        rw [readByte_ok (by omega), readByte_ok (by omega)]
        simp only [ok_bind]
        exact scanAkm_ok _ _ _ 0 _
      · exact ⟨_, rfl⟩
    · exact ⟨_, rfl⟩
  · exact ⟨_, rfl⟩

lemma parseVendor_ok (body : List Nat) (offset tag_length : Nat) (flags : SecFlags)
    (h : offset + 2 + tag_length ≤ body.length) :
    ∃ r, parseVendor body offset tag_length flags = .ok r := by
  unfold parseVendor
  split
  · rw [readBytes_ok (by omega)]
    simp only [ok_bind]
    have hlen := lengthTagData h
    split
    · next h4 =>
      rw [readByte_ok (by omega), readByte_ok (by omega), readByte_ok (by omega),
        readByte_ok (by omega)]
      simp only [ok_bind]
      split
      · exact ⟨_, rfl⟩
      · exact ⟨_, rfl⟩
    · exact ⟨_, rfl⟩
  · exact ⟨_, rfl⟩

lemma scanElements_ok_aux :
    ∀ (m : Nat) (body : List Nat) (offset : Nat) (flags : SecFlags),
      body.length - offset ≤ m → ∃ r, scanElements body offset flags = .ok r := by
  intro m
  induction m with
  | zero =>
    intro body offset flags h
    rw [scanElements, dif_neg (by omega)]
    exact ⟨flags, rfl⟩
  | succ n ih =>
    intro body offset flags h
    rw [scanElements]
    by_cases ho : offset + 2 ≤ body.length
    · rw [dif_pos ho]
      rw [readByte_ok (by omega), readByte_ok (by omega)]
      simp only [ok_bind]
      split
      · exact ⟨flags, rfl⟩
      · next hov =>
        split
        · obtain ⟨f1, hf1⟩ := parseRsn_ok body offset (body.getD (offset + 1) 0) flags (by omega)
          rw [hf1]
          simp only [ok_bind]
          exact ih body _ f1 (by omega)
        · split
          · obtain ⟨f1, hf1⟩ :=
              parseVendor_ok body offset (body.getD (offset + 1) 0) flags (by omega)
            rw [hf1]
            simp only [ok_bind]
            exact ih body _ f1 (by omega)
          · exact ih body _ flags (by omega)
    · rw [dif_neg ho]
      exact ⟨flags, rfl⟩

lemma scanElements_ok (body : List Nat) (offset : Nat) (flags : SecFlags) :
    ∃ r, scanElements body offset flags = .ok r :=
  scanElements_ok_aux body.length body offset flags (by omega)

lemma parse_wifi_security_ok (body : List Nat) (caps : Nat) :
    ∃ r, parse_wifi_security body caps = .ok r := by
  unfold parse_wifi_security
  dsimp only
  split
  · exact ⟨_, rfl⟩
  · split
    · exact ⟨_, rfl⟩
    · obtain ⟨f, hf⟩ := scanElements_ok body 12 initFlags
      rw [hf]
      simp only [ok_bind]
      split
      · split
        · exact ⟨_, rfl⟩
        · split
          · exact ⟨_, rfl⟩
          · exact ⟨_, rfl⟩
      · split
        · exact ⟨_, rfl⟩
        · split
          · exact ⟨_, rfl⟩
          · exact ⟨_, rfl⟩

lemma ssidScan_ok_aux :
    ∀ (m : Nat) (body : List Nat) (offset : Nat),
      body.length - offset ≤ m → ∃ r, ssidScan body offset = .ok r := by
  intro m
  induction m with
  | zero =>
    intro body offset h
    rw [ssidScan, dif_neg (by omega)]
    exact ⟨none, rfl⟩
  | succ n ih =>
    intro body offset h
    rw [ssidScan]
    by_cases ho : offset + 2 ≤ body.length
    · rw [dif_pos ho]
      rw [readByte_ok (by omega), readByte_ok (by omega)]
      simp only [ok_bind]
      split
      · exact ⟨none, rfl⟩
      · next hov =>
        split
        · rw [readBytes_ok (by omega)]
          simp only [ok_bind]
          split
          · exact ⟨_, rfl⟩
          · exact ⟨_, rfl⟩
        · exact ih body _ (by omega)
    · rw [dif_neg ho]
      exact ⟨none, rfl⟩

lemma ssidScan_ok (body : List Nat) (offset : Nat) : ∃ r, ssidScan body offset = .ok r :=
  ssidScan_ok_aux body.length body offset (by omega)

lemma parse_management_frame_body_ok (body : List Nat) :
    ∃ r, parse_management_frame_body body = .ok r := by
  unfold parse_management_frame_body
  split
  · exact ⟨none, rfl⟩
  · exact ssidScan_ok body 12

lemma parse_wifi_packet_ok (rt : Option RadiotapInfo) (data : List Nat) (ts : Nat) :
    ∃ r, parse_wifi_packet rt data ts = .ok r := by
  cases rt with
  | none => exact ⟨none, rfl⟩
  | some radiotap =>
    unfold parse_wifi_packet
    dsimp only
    split
    · exact ⟨none, rfl⟩
    · next hlen =>
      rw [readFrom_ok (by omega)]
      simp only [ok_bind]
      have hw : (data.drop radiotap.length).length = data.length - radiotap.length :=
        List.length_drop _ _
      split
      · exact ⟨none, rfl⟩
      · next h24 =>
        rw [readByte_ok (by omega), readByte_ok (by omega)]
        simp only [ok_bind]
        split
        · split
          · rw [readBytes_ok (by omega)]
            simp only [ok_bind]
            split
            · next h36 =>
              rw [readByte_ok (by omega), readByte_ok (by omega)]
              simp only [ok_bind]
              rw [readFrom_ok (by omega)]
              simp only [ok_bind]
              obtain ⟨s, hs⟩ := parse_wifi_security_ok _ _
              rw [hs]
              simp only [ok_bind]
              obtain ⟨ss, hss⟩ := parse_management_frame_body_ok _
              rw [hss]
              simp only [ok_bind]
              exact ⟨_, rfl⟩
            · exact ⟨_, rfl⟩
          · split
            · rw [readBytes_ok (by omega)]
              simp only [ok_bind]
              exact ⟨_, rfl⟩
            · exact ⟨none, rfl⟩
        · split
          · split
            · rw [readBytes_ok (by omega)]
              simp only [ok_bind]
              exact ⟨_, rfl⟩
            · split
              · rw [readBytes_ok (by omega)]
                simp only [ok_bind]
                exact ⟨_, rfl⟩
              · split
                · rw [readBytes_ok (by omega)]
                  simp only [ok_bind]
                  exact ⟨_, rfl⟩
                · exact ⟨none, rfl⟩
          · exact ⟨none, rfl⟩

/-- C10: for every input byte slice (and every radiotap-crate outcome and
timestamp), the frame decoder and its sub-parsers — the SSID tagged-element
walk and the RSN/vendor security scan — return a result (`.ok`, carrying
`some` or `none`) with every byte access in bounds: truncated headers and
overrunning declared element lengths terminate parsing through guarded
branches, never through an out-of-range index (modelled as `.error`). -/
theorem decoder_memory_safe :
    (∀ body : List Nat, ∃ r, parse_management_frame_body body = .ok r) ∧
    (∀ (body : List Nat) (caps : Nat), ∃ r, parse_wifi_security body caps = .ok r) ∧
    (∀ (rt : Option RadiotapInfo) (data : List Nat) (ts : Nat),
      ∃ r, parse_wifi_packet rt data ts = .ok r) :=
  ⟨parse_management_frame_body_ok, parse_wifi_security_ok, parse_wifi_packet_ok⟩

/-- C1 (amended): the security classifier is a total function of the
privacy capability bit and the flags derived from the element region:
privacy clear gives Open without inspecting elements; privacy set with an
element region shorter than 12 bytes gives Unknown; otherwise RSN with both
PSK and SAE gives WPA2WPA3, RSN with SAE only gives WPA3, RSN otherwise
gives WPA2, no RSN but the vendor WPA marker gives WPA, and neither gives
WEP. -/
theorem security_classifier_total (body : List Nat) (caps : Nat) :
    (caps &&& 0x0010 = 0 → parse_wifi_security body caps = .ok .Open) ∧
    (caps &&& 0x0010 ≠ 0 → body.length < 12 →
      parse_wifi_security body caps = .ok .Unknown) ∧
    (caps &&& 0x0010 ≠ 0 → 12 ≤ body.length →
      ∀ f, scanElements body 12 initFlags = .ok f →
        (f.has_rsn = true → f.has_sae = true → f.has_psk = true →
          parse_wifi_security body caps = .ok .WPA2WPA3) ∧
        (f.has_rsn = true → f.has_sae = true → f.has_psk = false →
          parse_wifi_security body caps = .ok .WPA3) ∧
        (f.has_rsn = true → f.has_sae = false →
          parse_wifi_security body caps = .ok .WPA2) ∧
        (f.has_rsn = false → f.has_wpa = true →
          parse_wifi_security body caps = .ok .WPA) ∧
        (f.has_rsn = false → f.has_wpa = false →
          parse_wifi_security body caps = .ok .WEP)) := by
  refine ⟨?_, ?_, ?_⟩
  · intro h0
    unfold parse_wifi_security
    dsimp only
    rw [if_pos (by simpa using h0)]
  · intro hp hlen
    unfold parse_wifi_security
    dsimp only
    rw [if_neg (by simpa using hp), if_pos hlen]
  · intro hp hlen f hf
    unfold parse_wifi_security
    dsimp only
    rw [if_neg (by simpa using hp), if_neg (by omega), hf]
    simp only [ok_bind]
    refine ⟨?_, ?_, ?_, ?_, ?_⟩
    · intro h1 h2 h3
      simp [h1, h2, h3]
    · intro h1 h2 h3
      simp [h1, h2, h3]
    · intro h1 h2
      simp [h1, h2]
    · intro h1 h2
      simp [h1, h2]
    · intro h1 h2
      simp [h1, h2, hp]

/-- C1 counterexample: with the privacy bit set, an element region shorter
than 12 bytes (here: empty) in which neither RSN nor vendor WPA is found
yields Unknown, not WEP as the claim states for every element-region byte
string. -/
theorem security_classifier_short_body_cex :
    parse_wifi_security [] 0x0010 = .ok .Unknown ∧
    parse_wifi_security [] 0x0010 ≠ .ok .WEP := by
  constructor
  · rfl
  · intro h
    rw [show parse_wifi_security [] 0x0010 = Except.ok WifiSecurity.Unknown from rfl] at h
    simp at h

/-- C1 witness: the amended theorem applied to a concrete element region
holding an RSN element with a single SAE AKM suite, under a capability
field with the privacy bit set: the classifier yields WPA3. -/
theorem security_classifier_total_witness :
    ((0x0010 : Nat) &&& 0x0010 ≠ 0) ∧ 12 ≤ exBody.length ∧
    scanElements exBody 12 initFlags = .ok ⟨true, false, true, false⟩ ∧
    parse_wifi_security exBody 0x0010 = .ok .WPA3 := by
  have hscan : scanElements exBody 12 initFlags = .ok ⟨true, false, true, false⟩ := by
    rw [scanElements, dif_pos (by decide)]
    show scanElements exBody 32 ⟨true, false, true, false⟩ = .ok ⟨true, false, true, false⟩
    rw [scanElements, dif_neg (by decide)]
  refine ⟨by decide, by decide, hscan, ?_⟩
  exact ((security_classifier_total exBody 0x0010).2.2 (by decide) (by decide)
    ⟨true, false, true, false⟩ hscan).2.1 rfl rfl rfl

/-- C3: for every record whose 802.11 header is at least 24 bytes past the
radio-metadata header, the decoder extracts the AP address as follows:
management frames (type 0) of subtype beacon (8), probe response (5),
association response (1) or reassociation response (3) take header bytes
[10,16); any other management subtype yields no packet; data frames
(type 2) take bytes [4,10) at (to-DS,from-DS)=(1,0), bytes [10,16) at
(0,1), bytes [16,22) at (0,0) and yield no packet at (1,1); every other
frame type yields no packet. -/
theorem frame_decoder_ap_address (rt : RadiotapInfo) (data : List Nat) (ts : Nat)
    (wlan : List Nat) (fc : Nat)
    (hw : wlan = data.drop rt.length)
    (hfc : fc = u16le (wlan.getD 0 0) (wlan.getD 1 0))
    (hlen : rt.length + 24 ≤ data.length) :
    (frameType fc = 0 →
      ((frameSubtype fc = 8 ∨ frameSubtype fc = 5 ∨ frameSubtype fc = 1 ∨ frameSubtype fc = 3) →
        ∃ p, parse_wifi_packet (some rt) data ts = .ok (some p) ∧
          p.source_address = some ((wlan.drop 10).take 6)) ∧
      (¬ (frameSubtype fc = 8 ∨ frameSubtype fc = 5 ∨ frameSubtype fc = 1 ∨ frameSubtype fc = 3) →
        parse_wifi_packet (some rt) data ts = .ok none)) ∧
    (frameType fc = 2 →
      (toDs fc = 1 → fromDs fc = 0 →
        ∃ p, parse_wifi_packet (some rt) data ts = .ok (some p) ∧
          p.source_address = some ((wlan.drop 4).take 6)) ∧
      (toDs fc = 0 → fromDs fc = 1 →
        ∃ p, parse_wifi_packet (some rt) data ts = .ok (some p) ∧
          p.source_address = some ((wlan.drop 10).take 6)) ∧
      (toDs fc = 0 → fromDs fc = 0 →
        ∃ p, parse_wifi_packet (some rt) data ts = .ok (some p) ∧
          p.source_address = some ((wlan.drop 16).take 6)) ∧
      (toDs fc = 1 → fromDs fc = 1 → parse_wifi_packet (some rt) data ts = .ok none)) ∧
    (frameType fc ≠ 0 → frameType fc ≠ 2 → parse_wifi_packet (some rt) data ts = .ok none) := by
  subst hw
  subst hfc
  have hdlen : ¬ data.length < rt.length + 24 := by omega
  have hwl : (data.drop rt.length).length = data.length - rt.length := List.length_drop _ _
  refine ⟨fun ht => ⟨fun hs => ?_, fun hns => ?_⟩,
    fun ht => ⟨fun htd hfd => ?_, fun htd hfd => ?_, fun htd hfd => ?_, fun htd hfd => ?_⟩,
    fun ht0 ht2 => ?_⟩
  · unfold parse_wifi_packet
    dsimp only
    rw [if_neg hdlen, readFrom_ok (by omega)]
    simp only [ok_bind]
    rw [if_neg (by omega), readByte_ok (by omega), readByte_ok (by omega)]
    simp only [ok_bind]
    rw [if_pos ht]
    rcases hs with h8 | h5 | h1 | h3
    · rw [if_pos (Or.inl h8), readBytes_ok (by omega)]
      simp only [ok_bind]
      by_cases h36 : (data.drop rt.length).length ≥ 36
      · rw [if_pos h36, readByte_ok (by omega), readByte_ok (by omega)]
        simp only [ok_bind]
        rw [readFrom_ok (by omega)]
        simp only [ok_bind]
        obtain ⟨s, hsec⟩ := parse_wifi_security_ok _ _
        rw [hsec]
        simp only [ok_bind]
        obtain ⟨ss, hss⟩ := parse_management_frame_body_ok _
        rw [hss]
        simp only [ok_bind]
        exact ⟨_, rfl, rfl⟩
      · rw [if_neg h36]
        exact ⟨_, rfl, rfl⟩
    · rw [if_pos (Or.inr h5), readBytes_ok (by omega)]
      simp only [ok_bind]
      by_cases h36 : (data.drop rt.length).length ≥ 36
      · rw [if_pos h36, readByte_ok (by omega), readByte_ok (by omega)]
        simp only [ok_bind]
        rw [readFrom_ok (by omega)]
        simp only [ok_bind]
        obtain ⟨s, hsec⟩ := parse_wifi_security_ok _ _
        rw [hsec]
        simp only [ok_bind]
        obtain ⟨ss, hss⟩ := parse_management_frame_body_ok _
        rw [hss]
        simp only [ok_bind]
        exact ⟨_, rfl, rfl⟩
      · rw [if_neg h36]
        exact ⟨_, rfl, rfl⟩
    · rw [if_neg (by omega), if_pos (Or.inl h1), readBytes_ok (by omega)]
      simp only [ok_bind]
      exact ⟨_, rfl, rfl⟩
    · rw [if_neg (by omega), if_pos (Or.inr h3), readBytes_ok (by omega)]
      simp only [ok_bind]
      exact ⟨_, rfl, rfl⟩
  · unfold parse_wifi_packet
    dsimp only
    rw [if_neg hdlen, readFrom_ok (by omega)]
    simp only [ok_bind]
    rw [if_neg (by omega), readByte_ok (by omega), readByte_ok (by omega)]
    simp only [ok_bind]
    rw [if_pos ht, if_neg (by tauto), if_neg (by tauto)]
  · unfold parse_wifi_packet
    dsimp only
    rw [if_neg hdlen, readFrom_ok (by omega)]
    simp only [ok_bind]
    rw [if_neg (by omega), readByte_ok (by omega), readByte_ok (by omega)]
    simp only [ok_bind]
    rw [if_neg (by omega), if_pos ht, if_pos ⟨htd, hfd⟩, readBytes_ok (by omega)]
    simp only [ok_bind]
    exact ⟨_, rfl, rfl⟩
  · unfold parse_wifi_packet
    dsimp only
    rw [if_neg hdlen, readFrom_ok (by omega)]
    simp only [ok_bind]
    rw [if_neg (by omega), readByte_ok (by omega), readByte_ok (by omega)]
    simp only [ok_bind]
    rw [if_neg (by omega), if_pos ht, if_neg (by omega), if_pos ⟨htd, hfd⟩,
      readBytes_ok (by omega)]
    simp only [ok_bind]
    exact ⟨_, rfl, rfl⟩
  · unfold parse_wifi_packet
    dsimp only
    rw [if_neg hdlen, readFrom_ok (by omega)]
    simp only [ok_bind]
    rw [if_neg (by omega), readByte_ok (by omega), readByte_ok (by omega)]
    simp only [ok_bind]
    rw [if_neg (by omega), if_pos ht, if_neg (by omega), if_neg (by omega),
      if_pos ⟨htd, hfd⟩, readBytes_ok (by omega)]
    simp only [ok_bind]
    exact ⟨_, rfl, rfl⟩
  · unfold parse_wifi_packet
    dsimp only
    rw [if_neg hdlen, readFrom_ok (by omega)]
    simp only [ok_bind]
    rw [if_neg (by omega), readByte_ok (by omega), readByte_ok (by omega)]
    simp only [ok_bind]
    rw [if_neg (by omega), if_pos ht, if_neg (by omega), if_neg (by omega), if_neg (by omega)]
  · unfold parse_wifi_packet
    dsimp only
    rw [if_neg hdlen, readFrom_ok (by omega)]
    simp only [ok_bind]
    rw [if_neg (by omega), readByte_ok (by omega), readByte_ok (by omega)]
    simp only [ok_bind]
    rw [if_neg ht0, if_neg ht2]

/-- C3 witness: the theorem applied to a concrete beacon record with an
empty radio header, yielding the BSSID from header bytes [10,16). -/
theorem frame_decoder_ap_address_witness :
    ((⟨0, none, none⟩ : RadiotapInfo).length + 24 ≤ exData.length) ∧
    ∃ p, parse_wifi_packet (some ⟨0, none, none⟩) exData 0 = .ok (some p) ∧
      p.source_address = some [11, 12, 13, 14, 15, 16] := by
  have h := frame_decoder_ap_address ⟨0, none, none⟩ exData 0 (exData.drop 0)
    (u16le ((exData.drop 0).getD 0 0) ((exData.drop 0).getD 1 0)) rfl rfl (by decide)
  obtain ⟨p, hp, hmac⟩ := (h.1 (by decide)).1 (Or.inl (by decide))
  refine ⟨by decide, p, hp, ?_⟩
  rw [hmac]
  decide

lemma scanPairs_eq_find (t : ℤ) (p1 p2 : Position) (rest : List Position) :
    scanPairs t (p1 :: p2 :: rest) =
      (((p1 :: p2 :: rest).zip (p2 :: rest)).find?
          (fun q => decide (t ≥ q.1.timestamp ∧ t ≤ q.2.timestamp))).map
        (fun q => interpolate t q.1 q.2) := by
  induction rest generalizing p1 p2 with
  | nil =>
    rw [scanPairs]
    by_cases hb : t ≥ p1.timestamp ∧ t ≤ p2.timestamp
    · rw [if_pos hb]
      simp [List.find?_cons_of_pos, hb]
    · rw [if_neg hb]
      simp [scanPairs, List.find?_cons_of_neg, hb]
  | cons p3 rest ih =>
    rw [scanPairs]
    by_cases hb : t ≥ p1.timestamp ∧ t ≤ p2.timestamp
    · rw [if_pos hb]
      simp [List.find?_cons_of_pos, hb]
    · rw [if_neg hb, ih p2 p3]
      simp [List.find?_cons_of_neg, hb]

/-- C2: `get_position_at` returns nothing for an empty track; returns the
lone fix unchanged for a single-fix track regardless of the requested
timestamp; and for a track of two or more fixes returns the linear
interpolation (`interpolate`, stamped with the requested timestamp) at the
first consecutive pair bracketing the timestamp, and nothing when no
consecutive pair brackets it (the `find?` on consecutive pairs is `none`). -/
theorem position_track_at_spec (t : Nat) :
    (get_position_at t [] = none) ∧
    (∀ p : Position, get_position_at t [p] = some p) ∧
    (∀ (p1 p2 : Position) (rest : List Position),
      get_position_at t (p1 :: p2 :: rest) =
        (((p1 :: p2 :: rest).zip (p2 :: rest)).find?
            (fun q => decide ((t : ℤ) ≥ q.1.timestamp ∧ (t : ℤ) ≤ q.2.timestamp))).map
          (fun q => interpolate (t : ℤ) q.1 q.2)) := by
  refine ⟨rfl, fun p => rfl, fun p1 p2 rest => ?_⟩
  unfold get_position_at
  dsimp only
  rw [if_neg (by simp), if_neg (by simp only [List.length_cons]; omega)]
  exact scanPairs_eq_find (t : ℤ) p1 p2 rest

lemma centroid_foldl (l : List Observation) (a b c : ℝ) :
    l.foldl
      (fun (acc : ℝ × ℝ × ℝ) o =>
        (acc.1 + weightOf o,
         acc.2.1 + o.position.latitude * weightOf o,
         acc.2.2 + o.position.longitude * weightOf o))
      (a, b, c) =
      (a + (l.map weightOf).sum,
       b + (l.map (fun o => o.position.latitude * weightOf o)).sum,
       c + (l.map (fun o => o.position.longitude * weightOf o)).sum) := by
  induction l generalizing a b c with
  | nil => simp
  | cons o l ih =>
    simp only [List.foldl_cons, List.map_cons, List.sum_cons, ih, Prod.mk.injEq]
    refine ⟨by ring, by ring, by ring⟩

/-- C4: for every non-empty observation list, `weighted_centroid` weights
each observation by `max 0 ((rssi + 100) / 75 * 100)` and returns the
weight-normalized mean latitude/longitude, falling back to the unweighted
arithmetic mean when the total weight is exactly zero, with the first
observation's timestamp in both cases. -/
theorem weighted_centroid_spec (first : Observation) (rest : List Observation) :
    weighted_centroid (first :: rest) =
      some ⟨(if ((first :: rest).map weightOf).sum = 0 then
              ((first :: rest).map (fun o => o.position.latitude)).sum /
                ((first :: rest).length : ℝ)
            else
              ((first :: rest).map (fun o => o.position.latitude * weightOf o)).sum /
                ((first :: rest).map weightOf).sum),
            (if ((first :: rest).map weightOf).sum = 0 then
              ((first :: rest).map (fun o => o.position.longitude)).sum /
                ((first :: rest).length : ℝ)
            else
              ((first :: rest).map (fun o => o.position.longitude * weightOf o)).sum /
                ((first :: rest).map weightOf).sum),
            first.position.timestamp⟩ := by
  unfold weighted_centroid
  dsimp only
  rw [centroid_foldl]
  simp only [zero_add]
  by_cases hW : ((first :: rest).map weightOf).sum = 0
  · rw [if_pos hW, if_pos hW, if_pos hW]
  · rw [if_neg hW, if_neg hW, if_neg hW]

/-- C7: `rssi_to_distance` is strictly decreasing in the RSSI over
[-100, 0], and its value — the `Observation.distance` field — is
non-negative for every `i8` input (indeed every integer input). -/
theorem rssi_to_distance_monotone_nonneg :
    (∀ r1 r2 : ℤ, -100 ≤ r1 → r1 < r2 → r2 ≤ 0 →
      rssi_to_distance r2 < rssi_to_distance r1) ∧
    (∀ r : ℤ, 0 ≤ rssi_to_distance r) := by
  constructor
  · intro r1 r2 h1 h12 h2
    unfold rssi_to_distance RSSI_AT_1M PATH_LOSS_EXPONENT
    rw [Real.rpow_lt_rpow_left_iff (by norm_num)]
    have hr : (r1 : ℝ) < (r2 : ℝ) := by exact_mod_cast h12
    have h25 : (0 : ℝ) < 10.0 * 2.5 := by norm_num
    rw [div_lt_div_iff_of_pos_right h25]
    linarith
  · intro r
    unfold rssi_to_distance
    exact le_of_lt (Real.rpow_pos_of_pos (by norm_num) _)

/-- C7 witness: the theorem applied at RSSI -50 and -40 dBm (stronger
signal gives strictly smaller estimated distance) and at -37 dBm for
non-negativity. -/
theorem rssi_to_distance_witness :
    (-100 ≤ (-50 : ℤ)) ∧ ((-50 : ℤ) < -40) ∧ ((-40 : ℤ) ≤ 0) ∧
    rssi_to_distance (-40) < rssi_to_distance (-50) ∧ 0 ≤ rssi_to_distance (-37) :=
  ⟨by decide, by decide, by decide,
    rssi_to_distance_monotone_nonneg.1 (-50) (-40) (by decide) (by decide) (by decide),
    rssi_to_distance_monotone_nonneg.2 (-37)⟩

lemma haversine_symm (lat1 lon1 lat2 lon2 : ℝ) :
    haversine_distance lat1 lon1 lat2 lon2 = haversine_distance lat2 lon2 lat1 lon1 := by
  unfold haversine_distance
  dsimp only
  have key : ∀ x y : ℝ,
      Real.sin ((x - y) * (Real.pi / 180) / 2) ^ 2 =
        Real.sin ((y - x) * (Real.pi / 180) / 2) ^ 2 := by
    intro x y
    rw [show (x - y) * (Real.pi / 180) / 2 = -((y - x) * (Real.pi / 180) / 2) by ring,
      Real.sin_neg]
    ring
  rw [key lat2 lat1, key lon2 lon1,
    mul_comm (Real.cos (lat1 * (Real.pi / 180))) (Real.cos (lat2 * (Real.pi / 180)))]

/-- Great-circle separation predicate of the deduplicator: at least
`MIN_DISTANCE_BETWEEN_OBS` meters apart. -/
def FarApart (a b : Observation) : Prop :=
  MIN_DISTANCE_BETWEEN_OBS ≤
    haversine_distance a.position.latitude a.position.longitude
      b.position.latitude b.position.longitude

lemma farApart_symm {a b : Observation} (h : FarApart a b) : FarApart b a := by
  unfold FarApart at h ⊢
  rw [haversine_symm]
  exact h

lemma keepLoop_iff (o : Observation) (l : List Observation) :
    keepLoop o l = true ↔ ∀ e ∈ l, FarApart o e := by
  induction l with
  | nil => simp [keepLoop]
  | cons e l ih =>
    by_cases hd : haversine_distance o.position.latitude o.position.longitude
        e.position.latitude e.position.longitude < MIN_DISTANCE_BETWEEN_OBS
    · rw [keepLoop, if_pos hd]
      simp only [Bool.false_eq_true, false_iff, List.forall_mem_cons]
      intro hc
      exact absurd hc.1 (not_le.mpr hd)
    · rw [keepLoop, if_neg hd, ih]
      simp only [List.forall_mem_cons]
      exact (and_iff_right (not_lt.mp hd)).symm

lemma greedyFilter_subset :
    ∀ (rest init : List Observation), greedyFilter init rest ⊆ init ++ rest := by
  intro rest
  induction rest with
  | nil => intro init; simp [greedyFilter]
  | cons o rest ih =>
    intro init
    rw [greedyFilter]
    split
    · intro x hx
      have hmem := ih (init ++ [o]) hx
      simp only [List.append_assoc, List.singleton_append] at hmem
      exact hmem
    · intro x hx
      have hmem := ih init hx
      simp only [List.mem_append, List.mem_cons] at hmem ⊢
      tauto

lemma greedyFilter_init_mem :
    ∀ (rest init : List Observation) (x : Observation),
      x ∈ init → x ∈ greedyFilter init rest := by
  intro rest
  induction rest with
  | nil => intro init x hx; simpa [greedyFilter] using hx
  | cons o rest ih =>
    intro init x hx
    rw [greedyFilter]
    split
    · exact ih (init ++ [o]) x (List.mem_append_left _ hx)
    · exact ih init x hx

lemma greedyFilter_pairwise :
    ∀ (rest init : List Observation), List.Pairwise FarApart init →
      List.Pairwise FarApart (greedyFilter init rest) := by
  intro rest
  induction rest with
  | nil => intro init h; simpa [greedyFilter] using h
  | cons o rest ih =>
    intro init h
    rw [greedyFilter]
    split
    · next hk =>
      refine ih (init ++ [o]) ?_
      rw [List.pairwise_append]
      refine ⟨h, List.pairwise_singleton _ _, ?_⟩
      intro a ha b hb
      rw [List.mem_singleton] at hb
      rw [hb]
      exact farApart_symm ((keepLoop_iff o init).mp hk a ha)
    · exact ih init h

/-- C5: the spatial deduplicator leaves lists of at most one observation
unchanged; otherwise it returns a subset of the input in which every pair
of kept observations is at least `MIN_DISTANCE_BETWEEN_OBS` (5) meters
apart by great-circle distance, and which always contains an observation
of maximal signal strength. -/
theorem filter_close_observations_spec (observations : List Observation) :
    (observations.length ≤ 1 → filter_close_observations observations = observations) ∧
    filter_close_observations observations ⊆ observations ∧
    List.Pairwise FarApart (filter_close_observations observations) ∧
    (observations ≠ [] → ∃ o ∈ filter_close_observations observations,
      ∀ o' ∈ observations, o'.signal_strength ≤ o.signal_strength) := by
  by_cases hlen : observations.length ≤ 1
  · rcases observations with _ | ⟨o, rest⟩
    · have heq : filter_close_observations [] = ([] : List Observation) := by
        unfold filter_close_observations
        rw [if_pos hlen]
      exact ⟨fun _ => heq, by rw [heq]; exact fun x hx => hx,
        by rw [heq]; exact List.Pairwise.nil, fun hne => absurd rfl hne⟩
    · rcases rest with _ | ⟨o2, tail⟩
      · have heq : filter_close_observations [o] = [o] := by
          unfold filter_close_observations
          rw [if_pos hlen]
        refine ⟨fun _ => heq, by rw [heq]; exact fun x hx => hx,
          by rw [heq]; exact List.pairwise_singleton _ _, ?_⟩
        intro hne
        refine ⟨o, by rw [heq]; exact List.mem_singleton_self o, ?_⟩
        intro o' ho'
        rw [List.mem_singleton] at ho'
        subst ho'
        exact le_refl _
      · simp only [List.length_cons] at hlen
        omega
  · have hms := List.mergeSort_perm observations signalDesc
    have hsorted := @List.sorted_mergeSort Observation signalDesc
      (fun a b c hab hbc => by
        simp only [signalDesc, decide_eq_true_eq] at hab hbc ⊢
        omega)
      (fun a b => by
        simp only [signalDesc, Bool.or_eq_true, decide_eq_true_eq]
        omega)
      observations
    cases hms2 : observations.mergeSort signalDesc with
    | nil =>
      rw [hms2] at hms
      have hlen0 := hms.length_eq
      simp only [List.length_nil] at hlen0
      omega
    | cons first rest =>
      rw [hms2] at hms hsorted
      have hfilter : filter_close_observations observations = greedyFilter [first] rest := by
        unfold filter_close_observations
        rw [if_neg hlen, hms2]
      refine ⟨fun h => absurd h hlen, ?_, ?_, ?_⟩
      · rw [hfilter]
        intro x hx
        have hx2 := greedyFilter_subset rest [first] hx
        simp only [List.singleton_append] at hx2
        exact hms.subset hx2
      · rw [hfilter]
        exact greedyFilter_pairwise rest [first] (List.pairwise_singleton _ _)
      · intro hne
        refine ⟨first, ?_, ?_⟩
        · rw [hfilter]
          exact greedyFilter_init_mem rest [first] first (List.mem_singleton_self first)
        · intro o' ho'
          have hmem : o' ∈ first :: rest := hms.mem_iff.mpr ho'
          rcases List.mem_cons.mp hmem with h | h
          · subst h
            exact le_refl _
          · have hp := (List.pairwise_cons.mp hsorted).1 o' h
            simpa [signalDesc, decide_eq_true_eq] using hp

/-- C5 witness: the theorem applied to a one-observation list — the
deduplicator is a no-op and keeps the (trivially) strongest observation. -/
theorem filter_close_observations_witness :
    ([obsEx].length ≤ 1) ∧ ([obsEx] ≠ []) ∧
    filter_close_observations [obsEx] = [obsEx] ∧
    ∃ o ∈ filter_close_observations [obsEx],
      ∀ o' ∈ [obsEx], o'.signal_strength ≤ o.signal_strength := by
  have h := filter_close_observations_spec [obsEx]
  exact ⟨by simp, by simp, h.1 (by simp), h.2.2.2 (by simp)⟩

lemma alLookup_alUpdate_self (mac : List Nat) (ap : AccessPoint) :
    ∀ m, alLookup (alUpdate m mac ap) mac = some ap := by
  intro m
  induction m with
  | nil => simp [alUpdate, alLookup]
  | cons kv rest ih =>
    obtain ⟨k, v⟩ := kv
    by_cases hk : k = mac
    · simp [alUpdate, hk, alLookup]
    · simp [alUpdate, hk, alLookup, ih]

lemma alLookup_alUpdate_ne (mac mac2 : List Nat) (ap : AccessPoint) (hne : mac ≠ mac2) :
    ∀ m, alLookup (alUpdate m mac ap) mac2 = alLookup m mac2 := by
  intro m
  induction m with
  | nil => simp [alUpdate, alLookup, hne]
  | cons kv rest ih =>
    obtain ⟨k, v⟩ := kv
    by_cases hk : k = mac
    · simp [alUpdate, hk, alLookup, hne]
    · simp [alUpdate, hk, alLookup, ih]

lemma updAP_observations (ap : AccessPoint) (packet : Packet) (o : Observation) :
    (updAP ap packet o).observations = ap.observations ++ [o] := by
  unfold updAP
  dsimp only
  split_ifs <;> rfl

lemma updAP_estimated (ap : AccessPoint) (packet : Packet) (o : Observation) :
    (updAP ap packet o).estimated_position = ap.estimated_position ∧
    (updAP ap packet o).position_method = ap.position_method := by
  unfold updAP
  dsimp only
  split_ifs <;> exact ⟨rfl, rfl⟩

lemma updAP_ssid_some (ap : AccessPoint) (packet : Packet) (o : Observation)
    (v : List Nat) (h : ap.ssid = some v) : (updAP ap packet o).ssid = some v := by
  unfold updAP
  dsimp only
  split_ifs <;> simp_all

lemma updAP_security_some (ap : AccessPoint) (packet : Packet) (o : Observation)
    (v : WifiSecurity) (h : ap.security = some v) : (updAP ap packet o).security = some v := by
  unfold updAP
  dsimp only
  split_ifs <;> simp_all

lemma alLookup_aggStep (positions : List Position) (m : List (List Nat × AccessPoint))
    (packet : Packet) (mac : List Nat) :
    (pContrib positions mac packet = none ∧
      alLookup (aggStep positions m packet) mac = alLookup m mac) ∨
    (∃ o, pContrib positions mac packet = some o ∧
      alLookup (aggStep positions m packet) mac =
        some (updAP ((alLookup m mac).getD (freshAP mac packet)) packet o)) := by
  unfold aggStep
  cases hsa : packet.source_address with
  | none =>
    left
    refine ⟨?_, rfl⟩
    unfold pContrib
    rw [hsa]
  | some mac2 =>
    cases hss : packet.signal_strength with
    | none =>
      left
      refine ⟨?_, rfl⟩
      unfold pContrib
      rw [hsa, hss]
    | some signal =>
      cases hgp : get_position_at packet.timestamp positions with
      | none =>
        left
        refine ⟨?_, rfl⟩
        unfold pContrib
        rw [hsa, hss, hgp]
        simp
      | some pos =>
        dsimp only
        by_cases hm2 : mac2 = mac
        · subst hm2
          right
          refine ⟨mkObservation pos signal, ?_, ?_⟩
          · unfold pContrib
            rw [hsa, hss]
            dsimp only
            rw [if_pos rfl, hgp]
            rfl
          · rw [alLookup_alUpdate_self]
        · left
          refine ⟨?_, ?_⟩
          · unfold pContrib
            rw [hsa, hss]
            dsimp only
            rw [if_neg hm2]
          · rw [alLookup_alUpdate_ne _ _ _ hm2]

lemma obsAt_aggStep (positions : List Position) (m : List (List Nat × AccessPoint))
    (packet : Packet) (mac : List Nat) :
    obsAt (aggStep positions m packet) mac =
      obsAt m mac ++ (pContrib positions mac packet).toList := by
  rcases alLookup_aggStep positions m packet mac with ⟨hc, he⟩ | ⟨o, hc, he⟩
  · rw [hc]
    unfold obsAt
    rw [he]
    simp
  · rw [hc]
    unfold obsAt
    rw [he]
    simp only [Option.map_some', Option.getD_some, Option.toList_some]
    rw [updAP_observations]
    cases hl : alLookup m mac with
    | none => simp [freshAP]
    | some e => simp

lemma obsAt_foldl (positions : List Position) :
    ∀ (packets : List Packet) (m : List (List Nat × AccessPoint)) (mac : List Nat),
      obsAt (packets.foldl (aggStep positions) m) mac =
        obsAt m mac ++ contrib positions mac packets := by
  intro packets
  induction packets with
  | nil => intro m mac; simp [contrib]
  | cons p ps ih =>
    intro m mac
    rw [List.foldl_cons, ih, obsAt_aggStep]
    unfold contrib
    rw [List.filterMap_cons]
    cases hc : pContrib positions mac p <;> simp [List.append_assoc]

lemma aggStep_ssid (positions : List Position) (m : List (List Nat × AccessPoint))
    (packet : Packet) (mac : List Nat) (v : List Nat)
    (h : (alLookup m mac).bind (fun e => e.ssid) = some v) :
    (alLookup (aggStep positions m packet) mac).bind (fun e => e.ssid) = some v := by
  rcases alLookup_aggStep positions m packet mac with ⟨_, he⟩ | ⟨o, _, he⟩
  · rw [he, h]
  · rw [he]
    cases hl : alLookup m mac with
    | none => rw [hl] at h; simp at h
    | some e =>
      rw [hl] at h
      simp only [Option.some_bind, Option.getD_some] at h ⊢
      exact updAP_ssid_some _ _ _ _ h

lemma aggStep_security (positions : List Position) (m : List (List Nat × AccessPoint))
    (packet : Packet) (mac : List Nat) (v : WifiSecurity)
    (h : (alLookup m mac).bind (fun e => e.security) = some v) :
    (alLookup (aggStep positions m packet) mac).bind (fun e => e.security) = some v := by
  rcases alLookup_aggStep positions m packet mac with ⟨_, he⟩ | ⟨o, _, he⟩
  · rw [he, h]
  · rw [he]
    cases hl : alLookup m mac with
    | none => rw [hl] at h; simp at h
    | some e =>
      rw [hl] at h
      simp only [Option.some_bind, Option.getD_some] at h ⊢
      exact updAP_security_some _ _ _ _ h

lemma aggStep_unset (positions : List Position) (m : List (List Nat × AccessPoint))
    (packet : Packet)
    (hm : ∀ mac entry, alLookup m mac = some entry →
      entry.estimated_position = none ∧ entry.position_method = none) :
    ∀ mac entry, alLookup (aggStep positions m packet) mac = some entry →
      entry.estimated_position = none ∧ entry.position_method = none := by
  intro mac entry he
  rcases alLookup_aggStep positions m packet mac with ⟨_, he2⟩ | ⟨o, _, he2⟩
  · rw [he2] at he
    exact hm mac entry he
  · rw [he2] at he
    obtain rfl := Option.some.inj he.symm
    rw [(updAP_estimated _ _ _).1, (updAP_estimated _ _ _).2]
    cases hl : alLookup m mac with
    | none => simp [freshAP]
    | some e =>
      simp only [Option.getD_some]
      exact hm mac e hl

lemma aggFold_ssid (positions : List Position) :
    ∀ (packets : List Packet) (m : List (List Nat × AccessPoint)) (mac : List Nat)
      (v : List Nat),
      (alLookup m mac).bind (fun e => e.ssid) = some v →
      (alLookup (packets.foldl (aggStep positions) m) mac).bind (fun e => e.ssid) = some v := by
  intro packets
  induction packets with
  | nil => intro m mac v h; exact h
  | cons p ps ih =>
    intro m mac v h
    exact ih (aggStep positions m p) mac v (aggStep_ssid positions m p mac v h)

lemma aggFold_security (positions : List Position) :
    ∀ (packets : List Packet) (m : List (List Nat × AccessPoint)) (mac : List Nat)
      (v : WifiSecurity),
      (alLookup m mac).bind (fun e => e.security) = some v →
      (alLookup (packets.foldl (aggStep positions) m) mac).bind (fun e => e.security) =
        some v := by
  intro packets
  induction packets with
  | nil => intro m mac v h; exact h
  | cons p ps ih =>
    intro m mac v h
    exact ih (aggStep positions m p) mac v (aggStep_security positions m p mac v h)

lemma aggFold_unset (positions : List Position) :
    ∀ (packets : List Packet) (m : List (List Nat × AccessPoint)),
      (∀ mac entry, alLookup m mac = some entry →
        entry.estimated_position = none ∧ entry.position_method = none) →
      ∀ mac entry, alLookup (packets.foldl (aggStep positions) m) mac = some entry →
        entry.estimated_position = none ∧ entry.position_method = none := by
  intro packets
  induction packets with
  | nil => intro m hm; exact hm
  | cons p ps ih =>
    intro m hm
    exact ih (aggStep positions m p) (aggStep_unset positions m p hm)

lemma bindPwdStep_ssid (ap : AccessPoint) (pwd : APPassword) (v : List Nat)
    (h : ap.ssid = some v) : (bindPwdStep ap pwd).ssid = some v := by
  unfold bindPwdStep
  dsimp only
  split_ifs <;> simp_all

lemma bindPwdStep_security (ap : AccessPoint) (pwd : APPassword) (v : WifiSecurity)
    (h : ap.security = some v) : (bindPwdStep ap pwd).security = some v := by
  unfold bindPwdStep
  dsimp only
  split_ifs <;> simp_all

lemma foldPwd_ssid (passwords : List APPassword) :
    ∀ (ap : AccessPoint) (v : List Nat), ap.ssid = some v →
      (passwords.foldl bindPwdStep ap).ssid = some v := by
  induction passwords with
  | nil => intro ap v h; exact h
  | cons p ps ih =>
    intro ap v h
    exact ih (bindPwdStep ap p) v (bindPwdStep_ssid ap p v h)

lemma foldPwd_security (passwords : List APPassword) :
    ∀ (ap : AccessPoint) (v : WifiSecurity), ap.security = some v →
      (passwords.foldl bindPwdStep ap).security = some v := by
  induction passwords with
  | nil => intro ap v h; exact h
  | cons p ps ih =>
    intro ap v h
    exact ih (bindPwdStep ap p) v (bindPwdStep_security ap p v h)

/-- C6: the estimation stage's selection is determined solely by the
deduplicated observation count: 0 observations leaves estimated_position
and position_method unchanged (and aggregation produces them unset);
exactly 1 sets the observation's position unchanged with method "single";
exactly 2 sets the weighted centroid with method "weighted_centroid";
3 or more sets the trilateration result with method "trilateration". -/
theorem position_estimator_selection (ap : AccessPoint) :
    ((filter_close_observations ap.observations).length = 0 →
      (estimate_ap ap).estimated_position = ap.estimated_position ∧
      (estimate_ap ap).position_method = ap.position_method) ∧
    (∀ o, filter_close_observations ap.observations = [o] →
      (estimate_ap ap).estimated_position = some o.position ∧
      (estimate_ap ap).position_method = some "single") ∧
    ((filter_close_observations ap.observations).length = 2 →
      (estimate_ap ap).estimated_position =
        weighted_centroid (filter_close_observations ap.observations) ∧
      (estimate_ap ap).position_method = some "weighted_centroid") ∧
    (3 ≤ (filter_close_observations ap.observations).length →
      (estimate_ap ap).estimated_position =
        trilateration (filter_close_observations ap.observations) ∧
      (estimate_ap ap).position_method = some "trilateration") ∧
    (∀ (packets : List Packet) (positions : List Position) (mac : List Nat)
        (entry : AccessPoint),
      alLookup (group_packets_by_mac packets positions) mac = some entry →
      entry.estimated_position = none ∧ entry.position_method = none) := by
  refine ⟨?_, ?_, ?_, ?_, ?_⟩
  · intro h0
    unfold estimate_ap
    dsimp only
    rw [h0]
    exact ⟨rfl, rfl⟩
  · intro o h1
    unfold estimate_ap
    dsimp only
    rw [h1]
    exact ⟨rfl, rfl⟩
  · intro h2
    unfold estimate_ap
    dsimp only
    rw [h2]
    exact ⟨rfl, rfl⟩
  · intro h3
    obtain ⟨k, hk⟩ : ∃ k, (filter_close_observations ap.observations).length = k + 3 :=
      ⟨(filter_close_observations ap.observations).length - 3, by omega⟩
    unfold estimate_ap
    dsimp only
    rw [hk]
    exact ⟨rfl, rfl⟩
  · intro packets positions mac entry he
    exact aggFold_unset positions packets []
      (fun mac2 e h => by simp [alLookup] at h) mac entry he

/-- C6 witness: the theorem applied to a concrete access point holding one
observation — the estimate is that observation's position with method
"single". -/
theorem position_estimator_selection_witness :
    filter_close_observations apEx.observations = [obsEx] ∧
    (estimate_ap apEx).estimated_position = some obsEx.position ∧
    (estimate_ap apEx).position_method = some "single" := by
  have hf : filter_close_observations apEx.observations = [obsEx] := rfl
  have h := (position_estimator_selection apEx).2.1 obsEx hf
  exact ⟨hf, h.1, h.2⟩

/-- C8 counterexample: two packets for the same MAC aggregated in the two
possible arrival orders yield different observation lists (the observations
appear in arrival order), refuting strict list equality. -/
theorem aggregation_order_dependent_cex :
    [pktA, pktB].Perm [pktB, pktA] ∧
    obsAt (group_packets_by_mac [pktA, pktB] [posEx]) macEx ≠
      obsAt (group_packets_by_mac [pktB, pktA] [posEx]) macEx := by
  constructor
  · exact List.Perm.swap pktB pktA []
  · have hA : obsAt (group_packets_by_mac [pktA, pktB] [posEx]) macEx =
        [mkObservation posEx (-40), mkObservation posEx (-50)] := by
      unfold group_packets_by_mac
      rw [obsAt_foldl]
      rfl
    have hB : obsAt (group_packets_by_mac [pktB, pktA] [posEx]) macEx =
        [mkObservation posEx (-50), mkObservation posEx (-40)] := by
      unfold group_packets_by_mac
      rw [obsAt_foldl]
      rfl
    rw [hA, hB]
    intro h
    have h2 := congrArg (fun l => l.map (fun o => o.signal_strength)) h
    simp only [List.map_cons, List.map_nil, mkObservation, List.cons.injEq] at h2
    omega

/-- C8 (amended): for every packet list and every permutation of it,
aggregating against the same position track produces, for every MAC, the
same multiset of observations: the per-AP observation list is permuted
along with the input, hence independent of arrival order up to order of
the observations (though not as an ordered list). -/
theorem aggregation_perm_invariant (packets1 packets2 : List Packet)
    (positions : List Position) (hp : packets1.Perm packets2) (mac : List Nat) :
    (obsAt (group_packets_by_mac packets1 positions) mac).Perm
      (obsAt (group_packets_by_mac packets2 positions) mac) := by
  unfold group_packets_by_mac
  rw [obsAt_foldl, obsAt_foldl]
  have hnil : obsAt [] mac = [] := rfl
  rw [hnil]
  simp only [List.nil_append]
  unfold contrib
  exact hp.filterMap _

/-- C8 witness: the amended theorem applied to the two-packet swap. -/
theorem aggregation_perm_invariant_witness :
    [pktA, pktB].Perm [pktB, pktA] ∧
    (obsAt (group_packets_by_mac [pktA, pktB] [posEx]) macEx).Perm
      (obsAt (group_packets_by_mac [pktB, pktA] [posEx]) macEx) :=
  ⟨List.Perm.swap pktB pktA [],
    aggregation_perm_invariant [pktA, pktB] [pktB, pktA] [posEx]
      (List.Perm.swap pktB pktA []) macEx⟩

/-- C9: across aggregation and the password-enrichment step, an
AccessPoint's ssid and security, once set to a concrete value, are
preserved by every update: the aggregation fold keeps any set ssid/security
of any map entry, and the per-AP password fold of
`bind_passwords_to_aps` (which maps each AP through a fold of
`bindPwdStep`) keeps any set ssid/security. -/
theorem ssid_security_monotone :
    (∀ (positions : List Position) (packets : List Packet)
        (m : List (List Nat × AccessPoint)) (mac : List Nat) (v : List Nat),
      (alLookup m mac).bind (fun e => e.ssid) = some v →
      (alLookup (packets.foldl (aggStep positions) m) mac).bind (fun e => e.ssid) = some v) ∧
    (∀ (positions : List Position) (packets : List Packet)
        (m : List (List Nat × AccessPoint)) (mac : List Nat) (v : WifiSecurity),
      (alLookup m mac).bind (fun e => e.security) = some v →
      (alLookup (packets.foldl (aggStep positions) m) mac).bind (fun e => e.security) =
        some v) ∧
    (∀ (aps : List AccessPoint) (passwords : List APPassword),
      bind_passwords_to_aps aps passwords =
        aps.map (fun ap => passwords.foldl bindPwdStep ap)) ∧
    (∀ (ap : AccessPoint) (passwords : List APPassword) (v : List Nat),
      ap.ssid = some v → (passwords.foldl bindPwdStep ap).ssid = some v) ∧
    (∀ (ap : AccessPoint) (passwords : List APPassword) (v : WifiSecurity),
      ap.security = some v → (passwords.foldl bindPwdStep ap).security = some v) :=
  ⟨fun positions packets m mac v h => aggFold_ssid positions packets m mac v h,
   fun positions packets m mac v h => aggFold_security positions packets m mac v h,
   fun _ _ => rfl,
   fun ap passwords v h => foldPwd_ssid passwords ap v h,
   fun ap passwords v h => foldPwd_security passwords ap v h⟩

/-- C9 witness: the theorem applied to an access point whose ssid and
security are already set, through one aggregation step and one
password-binding step — both fields keep their values. -/
theorem ssid_security_monotone_witness :
    ((alLookup [(macEx, apSetEx)] macEx).bind (fun e => e.ssid) = some [65]) ∧
    ((alLookup (List.foldl (aggStep [posEx]) [(macEx, apSetEx)] [pktA]) macEx).bind
        (fun e => e.ssid) = some [65]) ∧
    (apSetEx.security = some .WPA2) ∧
    (([pwdEx].foldl bindPwdStep apSetEx).security = some .WPA2) := by
  refine ⟨rfl, ?_, rfl, ?_⟩
  · exact ssid_security_monotone.1 [posEx] [pktA] [(macEx, apSetEx)] macEx [65] rfl
  · exact ssid_security_monotone.2.2.2.2 apSetEx [pwdEx] .WPA2 rfl

end HcxMap
